import Mathlib

/-!
Verification development for the webcrypto-local session/dispatch layer.

Shallow embedding of:
* the server-side `KeyStorageService.onMessage` handler (source
  `src/unnamed/part_000`, class `KeyStorageService`), together with the
  memory (handle) storage it consults;
* the client-side `SubtleCrypto` proxy methods `digest`, `generateKey`
  and `deriveBits` (source `src/unnamed/part_001`);
* the action codec contract (spec section 4.4; the codec implementation
  itself is not part of the provided sources and is modelled from the
  spec).

External collaborators (the provider key-storage backends, the native
digest capability, the wire transport) are modelled as oracle functions
carried in the corresponding context structures, so that theorems
quantify over every possible behaviour of those collaborators.
-/

namespace WebcryptoLocal

/-- Kind of a WebCrypto key (wire field `type`: secret, public or private). -/
inductive KeyType
  | secretKey
  | publicKey
  | privateKey
  deriving DecidableEq

/-- The `algorithm` field of a live key object.  A proto-style algorithm
object still carries a `toAlgorithm` converter (source
`src/unnamed/part_000` line 113 tests `key.algorithm.toAlgorithm`); a
plain algorithm descriptor does not.  The descriptor payload is opaque
to the dispatch layer and modelled as a `Nat`. -/
inductive KeyAlgorithm
  | plain (desc : Nat)
  | proto (desc : Nat)
  deriving DecidableEq

/-- Result of calling the `toAlgorithm` converter: it produces the plain
algorithm descriptor wrapped by the proto object. -/
def KeyAlgorithm.toAlgorithm : KeyAlgorithm → KeyAlgorithm
  | .proto d => .plain d
  | .plain d => .plain d

/-- JavaScript truthiness test of `key.algorithm.toAlgorithm`
(`src/unnamed/part_000` line 113): only proto-style algorithm objects
carry the converter. -/
def KeyAlgorithm.hasToAlgorithm : KeyAlgorithm → Bool
  | .proto _ => true
  | .plain _ => false

/-- A live CryptoKey object as held server-side. -/
structure CryptoKey where
  algorithm : KeyAlgorithm
  keyKind : KeyType
  extractable : Bool
  usages : List String
  deriving DecidableEq

/-- `ServiceCryptoItem`: a live key together with the id of its owning
provider (source `src/unnamed/part_000` line 100,
`new ServiceCryptoItem(key, params.providerID)`). -/
structure ServiceCryptoItem where
  item : CryptoKey
  providerID : String
  deriving DecidableEq

/-- Association-list lookup used by the memory storage. -/
def findItem : List (Nat × ServiceCryptoItem) → Nat → Option ServiceCryptoItem
  | [], _ => none
  | (i, x) :: r, id => if i = id then some x else findItem r id

/-- Replace the entry stored under `id` (models the JavaScript in-place
mutation of the shared live object referenced by a handle). -/
def updateItem : List (Nat × ServiceCryptoItem) → Nat → ServiceCryptoItem →
    List (Nat × ServiceCryptoItem)
  | [], _, _ => []
  | (i, x) :: r, id, v =>
    if i = id then (i, v) :: updateItem r id v else (i, x) :: updateItem r id v

/-- The memory (handle) storage reached through
`this.object.object.memoryStorage` (source `src/unnamed/part_000`
line 78).  Modelled from the spec, section 4.3: the registry maps opaque
ids to live objects and `add` generates a fresh unique id (the registry
implementation itself is not under the provided sources). -/
structure MemoryStorage where
  nextId : Nat
  items : List (Nat × ServiceCryptoItem)
  deriving DecidableEq

/-- `memoryStorage.item(id)` — lookup of a live object by handle id. -/
def MemoryStorage.item (st : MemoryStorage) (id : Nat) : Option ServiceCryptoItem :=
  findItem st.items id

/-- `memoryStorage.add(item)`; returns the updated storage and the fresh
id under which the item was registered. -/
def MemoryStorage.add (st : MemoryStorage) (x : ServiceCryptoItem) :
    MemoryStorage × Nat :=
  (⟨st.nextId + 1, (st.nextId, x) :: st.items⟩, st.nextId)

/-- In-place overwrite of the live object stored under an existing id. -/
def MemoryStorage.updateEntry (st : MemoryStorage) (id : Nat)
    (v : ServiceCryptoItem) : MemoryStorage :=
  ⟨st.nextId, updateItem st.items id v⟩

/-- Concrete provider classes of the repository.  The `KeyStorageService`
handler only ever distinguishes `PvCrypto` from the rest
(`crypto instanceof PvCrypto`, source `src/unnamed/part_000` line 117). -/
inductive CryptoVariant
  | pv
  | ossl
  | p11
  deriving DecidableEq

/-- Pin options attached when persisting a key through `PvCrypto`
(source `src/unnamed/part_000` lines 118-121). -/
structure PinParams where
  pinFriendlyName : String
  pinDescription : String
  deriving DecidableEq

/-- A resolved provider: its concrete class plus its key-storage surface.
The storage operations are external collaborators and are modelled as
oracle functions.  `ksGetItem` receives the storage key name and the
optional algorithm / extractable / usages filters exactly as forwarded
by the service. -/
structure Provider where
  variant : CryptoVariant
  ksGetItem : String → Option Nat → Option Bool → Option (List String) → Option CryptoKey
  ksSetItem : CryptoKey → Option PinParams → String
  ksIndexOf : CryptoKey → Option String
  ksKeys : List String

/-- The provider directory as visible through `getCrypto`: a partial map
from provider id to provider. -/
def ProviderDirectory := String → Option Provider

/-- The algorithm filter carried by a `GetItem` action
(`params.algorithm`, offering `isEmpty()` and `toAlgorithm()`). -/
structure AlgorithmQuery where
  isEmpty : Bool
  desc : Nat
  deriving DecidableEq

/-- An incoming action envelope, flattened over the parameter fields the
key-storage protos use: `key` (storage key name, GetItem/RemoveItem),
`algorithm`/`extractable`/`keyUsages` (GetItem), `item.id`
(SetItem/IndexOf). -/
structure ActionProto where
  action : String
  providerID : String
  key : String
  algorithm : AlgorithmQuery
  extractable : Bool
  keyUsages : Option (List String)
  itemId : Nat
  deriving DecidableEq

/-- Session state; the SetItem handler reads `session.headers.origin`. -/
structure Session where
  origin : String
  deriving DecidableEq

/-- Error codes of `WebCryptoLocalError` used by this layer. -/
inductive ErrorCode
  | ACTION_NOT_IMPLEMENTED
  | PROVIDER_NOT_FOUND
  | MEMORY_STORAGE_ITEM_NOT_FOUND
  deriving DecidableEq

/-- A `WebCryptoLocalError` value. -/
structure WCLError where
  code : ErrorCode
  message : String
  deriving DecidableEq

/-- Payload of a `ResultProto`: UTF-8 bytes of a storage index, the wire
projection of a registered key (its handle id plus non-secret
descriptors), or a list of storage key names. -/
inductive ResultData
  | bytes (s : String)
  | keyProto (id : Nat) (key : CryptoKey) (providerID : String)
  | strings (xs : List String)
  deriving DecidableEq

/-- Observable events of one dispatch, in execution order. -/
inductive Ev
  | providerResolve (id : String)
  | handleLookup (id : Nat)
  | ksGetItemCall (alg : Option Nat) (ext : Option Bool) (usages : Option (List String))
  | ksSetItemCall (key : CryptoKey) (opts : Option PinParams)
  | ksOtherCall
  | registryAdd (id : Nat)
  | resultBuild
  deriving DecidableEq

/-- Outcome of one `onMessage` dispatch: the event trace, the final
memory storage, and either the result payload (`none` when the handler
sets no `result.data`) or the thrown error. -/
structure DispatchOut where
  trace : List Ev
  storage : MemoryStorage
  result : Except WCLError (Option ResultData)

/-- `true` iff every handle lookup in the trace is preceded by a
provider resolution. -/
def handleAfterProvider : Bool → List Ev → Bool
  | _, [] => true
  | _, .providerResolve _ :: r => handleAfterProvider true r
  | seen, .handleLookup _ :: r => seen && handleAfterProvider seen r
  | seen, _ :: r => handleAfterProvider seen r

/-- `true` iff every result build in the trace is preceded by a registry
insertion. -/
def addBeforeBuild : Bool → List Ev → Bool
  | _, [] => true
  | _, .registryAdd _ :: r => addBeforeBuild true r
  | seen, .resultBuild :: r => seen && addBeforeBuild seen r
  | seen, _ :: r => addBeforeBuild seen r

/-- Modelled from the spec, section 4.1: `CryptoService.getCrypto` (not
under the provided sources) resolves a provider id through the provider
directory and fails with a provider-not-found error when it does not
resolve. -/
def getCrypto (dir : ProviderDirectory) (id : String) : Except WCLError Provider :=
  match dir id with
  | some p => .ok p
  | none => .error ⟨.PROVIDER_NOT_FOUND, "Provider " ++ id ++ " is not found"⟩

/-- Action code owned by the GetItem handler. -/
def KeyStorageGetItemAction : String := "keyStorage/getItem"

/-- Action code owned by the SetItem handler. -/
def KeyStorageSetItemAction : String := "keyStorage/setItem"

/-- Action code owned by the RemoveItem handler. -/
def KeyStorageRemoveItemAction : String := "keyStorage/removeItem"

/-- Action code owned by the Keys handler. -/
def KeyStorageKeysAction : String := "keyStorage/keys"

/-- Action code owned by the IndexOf handler. -/
def KeyStorageIndexOfAction : String := "keyStorage/indexOf"

/-- Action code owned by the Clear handler. -/
def KeyStorageClearAction : String := "keyStorage/clear"

/-- The six action codes registered by the `KeyStorageService`
constructor (source `src/unnamed/part_000` lines 61-70). -/
def ownedCodes : List String :=
  [KeyStorageKeysAction, KeyStorageIndexOfAction, KeyStorageGetItemAction,
   KeyStorageSetItemAction, KeyStorageRemoveItemAction, KeyStorageClearAction]

/-- Algorithm filter forwarded by the GetItem handler:
`params.algorithm.isEmpty() ? undefined : params.algorithm.toAlgorithm()`
(source `src/unnamed/part_000` line 93). -/
def fwdAlg (a : ActionProto) : Option Nat :=
  if a.algorithm.isEmpty then none else some a.algorithm.desc

/-- Extractable filter forwarded by the GetItem handler:
`params.extractable || undefined` (source line 94) — `false` collapses
to `undefined`. -/
def fwdExt (a : ActionProto) : Option Bool :=
  if a.extractable then some true else none

/-- GetItem handler (source `src/unnamed/part_000` lines 85-106). -/
def getItemHandle (dir : ProviderDirectory) (st : MemoryStorage)
    (a : ActionProto) : DispatchOut :=
  match getCrypto dir a.providerID with
  | .error e => ⟨[.providerResolve a.providerID], st, .error e⟩
  | .ok p =>
    match p.ksGetItem a.key (fwdAlg a) (fwdExt a) a.keyUsages with
    | some k =>
      let reg := st.add ⟨k, a.providerID⟩
      ⟨[.providerResolve a.providerID,
        .ksGetItemCall (fwdAlg a) (fwdExt a) a.keyUsages,
        .registryAdd reg.2, .resultBuild],
       reg.1, .ok (some (.keyProto reg.2 k a.providerID))⟩
    | none =>
      ⟨[.providerResolve a.providerID,
        .ksGetItemCall (fwdAlg a) (fwdExt a) a.keyUsages],
       st, .ok none⟩

/-- `key.algorithm = key.algorithm.toAlgorithm()` guarded by the
truthiness of the converter (source `src/unnamed/part_000` lines
113-115). -/
def convertKeyAlgorithm (k : CryptoKey) : CryptoKey :=
  if k.algorithm.hasToAlgorithm then { k with algorithm := k.algorithm.toAlgorithm }
  else k

/-- Pin options attached for `PvCrypto`: friendly name is the session
origin, description is the comma-joined usage list (source lines
119-120). -/
def setItemPinParams (s : Session) (k : CryptoKey) : PinParams :=
  ⟨s.origin, String.intercalate ", " k.usages⟩

/-- SetItem handler (source `src/unnamed/part_000` lines 107-128).  Note
the source order: the memory-storage handle lookup (line 110) runs
before the provider resolution (line 111).  The in-place mutation of the
live key object is modelled as `MemoryStorage.updateEntry` on the shared
registry. -/
def setItemHandle (dir : ProviderDirectory) (s : Session) (st : MemoryStorage)
    (a : ActionProto) : DispatchOut :=
  match st.item a.itemId with
  | none =>
    ⟨[.handleLookup a.itemId], st,
     .error ⟨.MEMORY_STORAGE_ITEM_NOT_FOUND,
             "Cannot get CryptoKey from memory storage"⟩⟩
  | some sci =>
    match getCrypto dir a.providerID with
    | .error e =>
      ⟨[.handleLookup a.itemId, .providerResolve a.providerID], st, .error e⟩
    | .ok p =>
      let k2 := convertKeyAlgorithm sci.item
      let st2 := st.updateEntry a.itemId { sci with item := k2 }
      let opts := if p.variant = .pv then some (setItemPinParams s k2) else none
      ⟨[.handleLookup a.itemId, .providerResolve a.providerID,
        .ksSetItemCall k2 opts, .resultBuild],
       st2, .ok (some (.bytes (p.ksSetItem k2 opts)))⟩

/-- RemoveItem handler (source lines 129-137): resolves the provider and
delegates; sets no result data. -/
def removeItemHandle (dir : ProviderDirectory) (st : MemoryStorage)
    (a : ActionProto) : DispatchOut :=
  match getCrypto dir a.providerID with
  | .error e => ⟨[.providerResolve a.providerID], st, .error e⟩
  | .ok _ => ⟨[.providerResolve a.providerID, .ksOtherCall], st, .ok none⟩

/-- Keys handler (source lines 138-147). -/
def keysHandle (dir : ProviderDirectory) (st : MemoryStorage)
    (a : ActionProto) : DispatchOut :=
  match getCrypto dir a.providerID with
  | .error e => ⟨[.providerResolve a.providerID], st, .error e⟩
  | .ok p =>
    ⟨[.providerResolve a.providerID, .ksOtherCall, .resultBuild], st,
     .ok (some (.strings p.ksKeys))⟩

/-- IndexOf handler (source lines 148-161): resolves the provider first
(line 151), then looks up the handle (line 152); result data is set only
when the provider reports an index. -/
def indexOfHandle (dir : ProviderDirectory) (st : MemoryStorage)
    (a : ActionProto) : DispatchOut :=
  match getCrypto dir a.providerID with
  | .error e => ⟨[.providerResolve a.providerID], st, .error e⟩
  | .ok p =>
    match st.item a.itemId with
    | none =>
      ⟨[.providerResolve a.providerID, .handleLookup a.itemId], st,
       .error ⟨.MEMORY_STORAGE_ITEM_NOT_FOUND,
               "Cannot get CryptoKey from memory storage"⟩⟩
    | some sci =>
      match p.ksIndexOf sci.item with
      | some idx =>
        ⟨[.providerResolve a.providerID, .handleLookup a.itemId,
          .ksOtherCall, .resultBuild],
         st, .ok (some (.bytes idx))⟩
      | none =>
        ⟨[.providerResolve a.providerID, .handleLookup a.itemId, .ksOtherCall],
         st, .ok none⟩

/-- Clear handler (source lines 162-171). -/
def clearHandle (dir : ProviderDirectory) (st : MemoryStorage)
    (a : ActionProto) : DispatchOut :=
  match getCrypto dir a.providerID with
  | .error e => ⟨[.providerResolve a.providerID], st, .error e⟩
  | .ok _ => ⟨[.providerResolve a.providerID, .ksOtherCall], st, .ok none⟩

/-- `KeyStorageService.onMessage` (source `src/unnamed/part_000` lines
81-176): the switch over the action code, with the default case throwing
`ACTION_NOT_IMPLEMENTED`. -/
def onMessage (dir : ProviderDirectory) (s : Session) (st : MemoryStorage)
    (a : ActionProto) : DispatchOut :=
  if a.action = KeyStorageGetItemAction then getItemHandle dir st a
  else if a.action = KeyStorageSetItemAction then setItemHandle dir s st a
  else if a.action = KeyStorageRemoveItemAction then removeItemHandle dir st a
  else if a.action = KeyStorageKeysAction then keysHandle dir st a
  else if a.action = KeyStorageIndexOfAction then indexOfHandle dir st a
  else if a.action = KeyStorageClearAction then clearHandle dir st a
  else
    ⟨[], st,
     .error ⟨.ACTION_NOT_IMPLEMENTED,
             "Action " ++ a.action ++ " is not implemented"⟩⟩

/-! ## Client-side `SubtleCrypto` proxy (source `src/unnamed/part_001`) -/

/-- Context for `SubtleCrypto.digest`: `nativeDigest` is
`self.crypto.subtle.digest` when `self.crypto` exists (`none` when the
local capability is absent); a native attempt that throws is modelled as
the oracle returning `none` for that input.  `providerDigest` is the
round trip through `DigestActionProto` and `service.client.send`.
Algorithms are opaque `Nat` identifiers and byte buffers are `List Nat`. -/
structure DigestCtx where
  nativeDigest : Option (Nat → List Nat → Option (List Nat))
  providerDigest : Nat → List Nat → List Nat

/-- `SubtleCrypto.digest` (source `src/unnamed/part_001` lines 80-107):
try the local native digest first when available, falling back to the
provider pipeline on absence or failure.  Returns the digest bytes
together with a flag recording whether the provider pipeline was
consulted. -/
def digest (ctx : DigestCtx) (alg : Nat) (data : List Nat) : List Nat × Bool :=
  match ctx.nativeDigest with
  | some nd =>
    match nd alg data with
    | some r => (r, false)
    | none => (ctx.providerDigest alg data, true)
  | none => (ctx.providerDigest alg data, true)

/-- A wire result returned by `service.client.send` for a generateKey
request: it may carry key-pair shaped data, single-key shaped data, or
neither. -/
inductive WireResult
  | pairData (priv pub : Nat)
  | keyData (k : Nat)
  | malformed
  deriving DecidableEq

/-- `CryptoKeyPairProto.importProto` as a shape probe: succeeds exactly
on pair-shaped results. -/
def importKeyPairProto : WireResult → Option (Nat × Nat)
  | .pairData a b => some (a, b)
  | _ => none

/-- `CryptoKeyProto.importProto`: succeeds on single-key shaped results
and fails otherwise. -/
def importKeyProto : WireResult → Except String Nat
  | .keyData k => .ok k
  | _ => .error "Cannot import CryptoKeyProto"

/-- The two result shapes of `generateKey`. -/
inductive GenKeyResult
  | pair (priv pub : Nat)
  | single (k : Nat)
  deriving DecidableEq

/-- The `GenerateKeyActionProto` fields filled by the client (source
lines 122-126). -/
structure GenerateKeyAction where
  providerID : String
  algorithm : Nat
  extractable : Bool
  usage : List String
  deriving DecidableEq

/-- Context for `generateKey`: the wire transport as an oracle from the
sent action to the provider's wire result. -/
structure GenKeyCtx where
  id : String
  send : GenerateKeyAction → WireResult

/-- `SubtleCrypto.generateKey` (source `src/unnamed/part_001` lines
112-138): send the action, then try to interpret the result as a
`CryptoKeyPairProto`; when that import fails, fall back to interpreting
it as a single `CryptoKeyProto`. -/
def generateKey (ctx : GenKeyCtx) (alg : Nat) (ext : Bool)
    (usages : List String) : Except String GenKeyResult :=
  let result := ctx.send ⟨ctx.id, alg, ext, usages⟩
  match importKeyPairProto result with
  | some pr => .ok (.pair pr.1 pr.2)
  | none =>
    match importKeyProto result with
    | .ok k => .ok (.single k)
    | .error e => .error e

/-- A JavaScript value as passed for the `length` parameter of
`deriveBits`; `typeof` distinguishes the primitive kinds. -/
inductive JsVal
  | num (n : Int)
  | str (s : String)
  | boolean (b : Bool)
  | undef
  deriving DecidableEq

/-- JavaScript `typeof`. -/
def typeofVal : JsVal → String
  | .num _ => "number"
  | .str _ => "string"
  | .boolean _ => "boolean"
  | .undef => "undefined"

/-- Modelled from the spec, section 4.4: `utils.checkPrimitive` (not
under the provided sources) validates that a field is well-typed — the
expected primitive type name is passed at each call site
(`checkPrimitive(length, "number", "length")`, and likewise with
`"boolean"` and `"string"` elsewhere in `src/unnamed/part_001`), so the
check compares the value's `typeof` against that name. -/
def checkPrimitive (v : JsVal) (ty : String) (name : String) :
    Except String Unit :=
  if typeofVal v = ty then .ok ()
  else .error ("Parameter " ++ name ++ " is required and must be " ++ ty)

/-- The `DeriveBitsActionProto` fields filled by the client (source
lines 41-45); `length` is stored exactly as received. -/
structure DeriveBitsAction where
  providerID : String
  algorithm : Nat
  key : Nat
  length : JsVal
  deriving DecidableEq

/-- `SubtleCrypto.deriveBits` validation and action construction (source
`src/unnamed/part_001` lines 29-50), up to the point where the action is
handed to `service.client.send`.  The algorithm and base key are
embedded as already well-typed values, so `checkAlgorithm` and
`checkCryptoKey` pass; the only check applied to `length` is
`checkPrimitive(length, "number", "length")`. -/
def deriveBits (pid : String) (alg : Nat) (baseKey : Nat) (length : JsVal) :
    Except String DeriveBitsAction := do
  checkPrimitive length "number" "length"
  .ok ⟨pid, alg, baseKey, length⟩

/-! ## Action codec (spec section 4.4; modelled from the spec, the codec
implementation is not under the provided sources) -/

/-- A primitive wire field value. -/
inductive WireVal
  | natV (x : Nat)
  | strV (x : String)
  | boolV (x : Bool)
  deriving DecidableEq

/-- First-match field lookup in an encoded message. -/
def lookupField : List (String × WireVal) → String → Option WireVal
  | [], _ => none
  | (n, v) :: r, f => if n = f then some v else lookupField r f

/-- Modelled from the spec: encoding writes each schema field with its
value, in schema order. -/
def encodeFields (schema : List String) (vals : List WireVal) :
    List (String × WireVal) :=
  schema.zip vals

/-- Modelled from the spec: decoding reads each schema field from the
message and ignores every field the schema does not name. -/
def decodeFields : List String → List (String × WireVal) → Option (List WireVal)
  | [], _ => some []
  | f :: fs, msg =>
    match lookupField msg f with
    | some v =>
      match decodeFields fs msg with
      | some vs => some (v :: vs)
      | none => none
    | none => none

/-! ## Helper lemmas -/

theorem findItem_updateItem (l : List (Nat × ServiceCryptoItem)) (id : Nat)
    (v x : ServiceCryptoItem) (h : findItem l id = some x) :
    findItem (updateItem l id v) id = some v := by
  induction l with
  | nil => simp [findItem] at h
  | cons hd tl ih =>
    obtain ⟨i, y⟩ := hd
    by_cases hi : i = id
    · subst hi
      simp [findItem, updateItem]
    · simp only [findItem, updateItem, if_neg hi] at h ⊢
      exact ih h

theorem lookupField_append (pre m : List (String × WireVal)) (f : String)
    (h : ∀ p ∈ pre, p.1 ≠ f) : lookupField (pre ++ m) f = lookupField m f := by
  induction pre with
  | nil => rfl
  | cons hd tl ih =>
    obtain ⟨n, v⟩ := hd
    have hne : n ≠ f := h (n, v) (by simp)
    simp only [List.cons_append, lookupField, if_neg hne]
    exact ih (fun p hp => h p (by simp [hp]))

theorem decodeFields_encode_aux (fs : List String) :
    ∀ (vs : List WireVal) (pre extra : List (String × WireVal)),
      fs.Nodup → vs.length = fs.length → (∀ p ∈ pre, p.1 ∉ fs) →
      decodeFields fs (pre ++ (encodeFields fs vs ++ extra)) = some vs := by
  induction fs with
  | nil =>
    intro vs pre extra _ hlen _
    cases vs with
    | nil => simp [decodeFields]
    | cons v vs => simp at hlen
  | cons f fs ih =>
    intro vs pre extra hnd hlen hpre
    cases vs with
    | nil => simp at hlen
    | cons v vs =>
      obtain ⟨hf_notmem, hnd'⟩ := List.nodup_cons.mp hnd
      have hmsg : pre ++ (encodeFields (f :: fs) (v :: vs) ++ extra) =
          pre ++ ((f, v) :: (encodeFields fs vs ++ extra)) := by
        simp [encodeFields]
      rw [hmsg]
      have hlook : lookupField (pre ++ ((f, v) :: (encodeFields fs vs ++ extra))) f
          = some v := by
        rw [lookupField_append pre _ f (fun p hp => by
          have := hpre p hp
          simp only [List.mem_cons, not_or] at this
          exact this.1)]
        simp [lookupField]
      have htail : decodeFields fs (pre ++ ((f, v) :: (encodeFields fs vs ++ extra)))
          = some vs := by
        have hshape : pre ++ ((f, v) :: (encodeFields fs vs ++ extra)) =
            (pre ++ [(f, v)]) ++ (encodeFields fs vs ++ extra) := by
          simp
        rw [hshape]
        refine ih vs (pre ++ [(f, v)]) extra hnd' (by simpa using hlen) ?_
        intro p hp
        rcases List.mem_append.mp hp with hp1 | hp2
        · have := hpre p hp1
          simp only [List.mem_cons, not_or] at this
          exact this.2
        · have : p = (f, v) := by simpa using hp2
          subst this
          exact hf_notmem
      simp only [decodeFields, hlook, htail]

/-! ## Concrete instances used by counterexamples and witnesses -/

/-- A live key whose algorithm is already a plain descriptor. -/
def demoKey : CryptoKey := ⟨.plain 7, .secretKey, true, ["sign", "verify"]⟩

/-- A live key whose algorithm object still carries a `toAlgorithm`
converter. -/
def demoProtoKey : CryptoKey := ⟨.proto 7, .secretKey, true, ["sign", "verify"]⟩

/-- A provider key-storage `setItem` backend whose answer depends only on
whether pin options were attached. -/
def pinSensitiveSetItem : CryptoKey → Option PinParams → String :=
  fun _ o => match o with | some _ => "with-pin" | none => "no-pin"

/-- A `PvCrypto` provider instance. -/
def demoProviderPv : Provider :=
  ⟨.pv, fun _ _ _ _ => some demoKey, pinSensitiveSetItem, fun _ => some "k1", ["k1"]⟩

/-- The same provider record with the `OpenSSLCrypto` class tag: every
storage oracle is literally the one of `demoProviderPv`. -/
def demoProviderOssl : Provider :=
  { demoProviderPv with variant := .ossl }

/-- Directory resolving provider id `p1` to the `PvCrypto` instance. -/
def demoDir : ProviderDirectory :=
  fun s => if s = "p1" then some demoProviderPv else none

/-- Directory resolving provider id `p1` to the software instance. -/
def demoDirOssl : ProviderDirectory :=
  fun s => if s = "p1" then some demoProviderOssl else none

/-- Directory with no providers. -/
def emptyDir : ProviderDirectory := fun _ => none

def demoSession : Session := ⟨"https://example.com"⟩

/-- Memory storage holding `demoKey` under handle id 0. -/
def demoStorage : MemoryStorage := ⟨1, [(0, ⟨demoKey, "p1"⟩)]⟩

/-- Memory storage holding `demoProtoKey` under handle id 0. -/
def demoProtoStorage : MemoryStorage := ⟨1, [(0, ⟨demoProtoKey, "p1"⟩)]⟩

def demoSetItemAction : ActionProto :=
  { action := KeyStorageSetItemAction, providerID := "p1", key := "",
    algorithm := ⟨true, 0⟩, extractable := false, keyUsages := none, itemId := 0 }

def demoGetItemAction : ActionProto :=
  { action := KeyStorageGetItemAction, providerID := "p1", key := "k1",
    algorithm := ⟨true, 0⟩, extractable := false, keyUsages := none, itemId := 0 }

def demoKeysAction : ActionProto :=
  { demoGetItemAction with action := KeyStorageKeysAction }

def demoUnknownAction : ActionProto :=
  { demoGetItemAction with action := "certStorage/getItem" }

/-! ## Claim theorems -/

/-- Claim C3: dispatching an action whose code is owned by no handler of
the `KeyStorageService` fails with an `ACTION_NOT_IMPLEMENTED` error
whose message names the unhandled action code, performs no observable
handler step, and leaves the memory (handle) storage unchanged. -/
theorem keystorage_unknown_action (dir : ProviderDirectory) (s : Session)
    (st : MemoryStorage) (a : ActionProto) (h : a.action ∉ ownedCodes) :
    (onMessage dir s st a).storage = st ∧
    (onMessage dir s st a).trace = [] ∧
    (onMessage dir s st a).result =
      .error ⟨.ACTION_NOT_IMPLEMENTED,
              "Action " ++ a.action ++ " is not implemented"⟩ := by
  simp only [ownedCodes, List.mem_cons, List.not_mem_nil, or_false, not_or] at h
  obtain ⟨h1, h2, h3, h4, h5, h6⟩ := h
  unfold onMessage
  rw [if_neg h3, if_neg h4, if_neg h5, if_neg h1, if_neg h2, if_neg h6]
  exact ⟨rfl, rfl, rfl⟩

theorem keystorage_unknown_action_witness :
    (onMessage demoDir demoSession demoStorage demoUnknownAction).storage
      = demoStorage ∧
    (onMessage demoDir demoSession demoStorage demoUnknownAction).trace = [] ∧
    (onMessage demoDir demoSession demoStorage demoUnknownAction).result =
      .error ⟨.ACTION_NOT_IMPLEMENTED,
              "Action " ++ demoUnknownAction.action ++ " is not implemented"⟩ :=
  keystorage_unknown_action demoDir demoSession demoStorage demoUnknownAction
    (by decide)

/-- Claim C4: a `GetItem` dispatch whose provider storage lookup finds a
key registers that key in the memory (handle) storage before building
the result carrying the key's handle projection (fresh handle id
`st.nextId`); when the lookup finds no key, the result carries no data
and the storage is unchanged.  Stated over the two possible lookup
outcomes of the provider oracle. -/
theorem keystorage_getitem_registers (dir : ProviderDirectory) (s : Session)
    (st : MemoryStorage) (a : ActionProto) (p : Provider)
    (ha : a.action = KeyStorageGetItemAction) (hp : dir a.providerID = some p) :
    addBeforeBuild false (onMessage dir s st a).trace = true ∧
    (onMessage dir s st a).storage =
      (match p.ksGetItem a.key (fwdAlg a) (fwdExt a) a.keyUsages with
       | some k => (st.add ⟨k, a.providerID⟩).1
       | none => st) ∧
    (onMessage dir s st a).result =
      .ok (match p.ksGetItem a.key (fwdAlg a) (fwdExt a) a.keyUsages with
           | some k => some (.keyProto st.nextId k a.providerID)
           | none => none) ∧
    (onMessage dir s st a).trace =
      (match p.ksGetItem a.key (fwdAlg a) (fwdExt a) a.keyUsages with
       | some _ =>
         [.providerResolve a.providerID,
          .ksGetItemCall (fwdAlg a) (fwdExt a) a.keyUsages,
          .registryAdd st.nextId, .resultBuild]
       | none =>
         [.providerResolve a.providerID,
          .ksGetItemCall (fwdAlg a) (fwdExt a) a.keyUsages]) := by
  have hg : getCrypto dir a.providerID = .ok p := by simp [getCrypto, hp]
  have hm : onMessage dir s st a = getItemHandle dir st a := by
    unfold onMessage
    rw [ha, if_pos rfl]
  rw [hm]
  cases hk : p.ksGetItem a.key (fwdAlg a) (fwdExt a) a.keyUsages <;>
    simp [getItemHandle, hg, hk, MemoryStorage.add, addBeforeBuild]

theorem keystorage_getitem_registers_witness :
    addBeforeBuild false
      (onMessage demoDir demoSession demoStorage demoGetItemAction).trace = true ∧
    (onMessage demoDir demoSession demoStorage demoGetItemAction).storage =
      (match demoProviderPv.ksGetItem demoGetItemAction.key
          (fwdAlg demoGetItemAction) (fwdExt demoGetItemAction)
          demoGetItemAction.keyUsages with
       | some k => (demoStorage.add ⟨k, demoGetItemAction.providerID⟩).1
       | none => demoStorage) ∧
    (onMessage demoDir demoSession demoStorage demoGetItemAction).result =
      .ok (match demoProviderPv.ksGetItem demoGetItemAction.key
          (fwdAlg demoGetItemAction) (fwdExt demoGetItemAction)
          demoGetItemAction.keyUsages with
           | some k => some (.keyProto demoStorage.nextId k
               demoGetItemAction.providerID)
           | none => none) ∧
    (onMessage demoDir demoSession demoStorage demoGetItemAction).trace =
      (match demoProviderPv.ksGetItem demoGetItemAction.key
          (fwdAlg demoGetItemAction) (fwdExt demoGetItemAction)
          demoGetItemAction.keyUsages with
       | some _ =>
         [.providerResolve demoGetItemAction.providerID,
          .ksGetItemCall (fwdAlg demoGetItemAction) (fwdExt demoGetItemAction)
            demoGetItemAction.keyUsages,
          .registryAdd demoStorage.nextId, .resultBuild]
       | none =>
         [.providerResolve demoGetItemAction.providerID,
          .ksGetItemCall (fwdAlg demoGetItemAction) (fwdExt demoGetItemAction)
            demoGetItemAction.keyUsages]) :=
  keystorage_getitem_registers demoDir demoSession demoStorage demoGetItemAction
    demoProviderPv rfl rfl

/-- Claim C9: in a `GetItem` dispatch, each of the two conditions acts
independently — a client-supplied `extractable = false` is forwarded to
the provider's `keyStorage.getItem` as `undefined` (no constraint), and
a client-supplied empty algorithm filter is likewise forwarded as
`undefined` — and the call event recorded in the dispatch trace carries
exactly the forwarded filter triple, so the lookup behaves as if the
collapsed parameter were omitted. -/
theorem keystorage_getitem_forwards_undefined (dir : ProviderDirectory)
    (s : Session) (st : MemoryStorage) (a : ActionProto) (p : Provider)
    (ha : a.action = KeyStorageGetItemAction) (hp : dir a.providerID = some p) :
    (a.extractable = false → fwdExt a = none) ∧
    (a.algorithm.isEmpty = true → fwdAlg a = none) ∧
    Ev.ksGetItemCall (fwdAlg a) (fwdExt a) a.keyUsages
      ∈ (onMessage dir s st a).trace := by
  refine ⟨?_, ?_, ?_⟩
  · intro hx
    simp [fwdExt, hx]
  · intro hx
    simp [fwdAlg, hx]
  · have hg : getCrypto dir a.providerID = .ok p := by simp [getCrypto, hp]
    have hm : onMessage dir s st a = getItemHandle dir st a := by
      unfold onMessage
      rw [ha, if_pos rfl]
    rw [hm]
    cases hk : p.ksGetItem a.key (fwdAlg a) (fwdExt a) a.keyUsages <;>
      simp [getItemHandle, hg, hk]

/-- A GetItem action with `extractable = false` but a non-empty
algorithm filter: the mixed case, where only the extractable constraint
collapses to `undefined`. -/
def demoGetItemMixedAction : ActionProto :=
  { demoGetItemAction with algorithm := ⟨false, 5⟩ }

theorem keystorage_getitem_forwards_undefined_witness :
    fwdExt demoGetItemMixedAction = none ∧
    Ev.ksGetItemCall (fwdAlg demoGetItemMixedAction)
      (fwdExt demoGetItemMixedAction) demoGetItemMixedAction.keyUsages
      ∈ (onMessage demoDir demoSession demoStorage demoGetItemMixedAction).trace ∧
    fwdAlg demoGetItemAction = none ∧
    Ev.ksGetItemCall (fwdAlg demoGetItemAction) (fwdExt demoGetItemAction)
      demoGetItemAction.keyUsages
      ∈ (onMessage demoDir demoSession demoStorage demoGetItemAction).trace :=
  ⟨(keystorage_getitem_forwards_undefined demoDir demoSession demoStorage
      demoGetItemMixedAction demoProviderPv rfl rfl).1 rfl,
   (keystorage_getitem_forwards_undefined demoDir demoSession demoStorage
      demoGetItemMixedAction demoProviderPv rfl rfl).2.2,
   (keystorage_getitem_forwards_undefined demoDir demoSession demoStorage
      demoGetItemAction demoProviderPv rfl rfl).2.1 rfl,
   (keystorage_getitem_forwards_undefined demoDir demoSession demoStorage
      demoGetItemAction demoProviderPv rfl rfl).2.2⟩

/-- Claim C1 counterexample: the SetItem action code is owned by the
service, yet its dispatch performs the memory-storage handle lookup
before the provider resolution, so the claimed ordering — provider
resolution before any handle lookup, for every owned action code
including SetItem — is false. -/
theorem keystorage_resolution_order_ce :
    demoSetItemAction.action ∈ ownedCodes ∧
    handleAfterProvider false
      (onMessage demoDir demoSession demoStorage demoSetItemAction).trace
      = false ∧
    (onMessage demoDir demoSession demoStorage demoSetItemAction).trace.head?
      = some (.handleLookup 0) := by
  refine ⟨by decide, ?_, ?_⟩ <;> rfl

/-- Claim C1 amended: for every owned action code other than SetItem
(IndexOf included), the provider id is resolved first — no handle lookup
precedes a provider resolution in the dispatch trace — and when the
directory does not resolve the provider id the dispatch fails with a
provider-not-found error. -/
theorem keystorage_resolution_order (dir : ProviderDirectory) (s : Session)
    (st : MemoryStorage) (a : ActionProto)
    (h : a.action ≠ KeyStorageSetItemAction) (hmem : a.action ∈ ownedCodes) :
    handleAfterProvider false (onMessage dir s st a).trace = true ∧
    (onMessage dir s st a).result =
      (match dir a.providerID with
       | none => .error ⟨.PROVIDER_NOT_FOUND,
                         "Provider " ++ a.providerID ++ " is not found"⟩
       | some _ => (onMessage dir s st a).result) := by
  simp only [ownedCodes, List.mem_cons, List.not_mem_nil, or_false] at hmem
  rcases hmem with ha | ha | ha | ha | ha | ha
  · -- keys
    have hm : onMessage dir s st a = keysHandle dir st a := by
      unfold onMessage
      rw [ha, if_neg (by decide), if_neg (by decide), if_neg (by decide),
          if_pos rfl]
    rw [hm]
    cases hdir : dir a.providerID <;>
      simp [keysHandle, getCrypto, hdir, handleAfterProvider]
  · -- indexOf
    have hm : onMessage dir s st a = indexOfHandle dir st a := by
      unfold onMessage
      rw [ha, if_neg (by decide), if_neg (by decide), if_neg (by decide),
          if_neg (by decide), if_pos rfl]
    rw [hm]
    cases hdir : dir a.providerID with
    | none => simp [indexOfHandle, getCrypto, hdir, handleAfterProvider]
    | some p =>
      cases hit : st.item a.itemId with
      | none => simp [indexOfHandle, getCrypto, hdir, hit, handleAfterProvider]
      | some sci =>
        cases hidx : p.ksIndexOf sci.item <;>
          simp [indexOfHandle, getCrypto, hdir, hit, hidx, handleAfterProvider]
  · -- getItem
    have hm : onMessage dir s st a = getItemHandle dir st a := by
      unfold onMessage
      rw [ha, if_pos rfl]
    rw [hm]
    cases hdir : dir a.providerID with
    | none => simp [getItemHandle, getCrypto, hdir, handleAfterProvider]
    | some p =>
      cases hk : p.ksGetItem a.key (fwdAlg a) (fwdExt a) a.keyUsages <;>
        simp [getItemHandle, getCrypto, hdir, hk, handleAfterProvider]
  · -- setItem: excluded
    exact absurd ha h
  · -- removeItem
    have hm : onMessage dir s st a = removeItemHandle dir st a := by
      unfold onMessage
      rw [ha, if_neg (by decide), if_neg (by decide), if_pos rfl]
    rw [hm]
    cases hdir : dir a.providerID <;>
      simp [removeItemHandle, getCrypto, hdir, handleAfterProvider]
  · -- clear
    have hm : onMessage dir s st a = clearHandle dir st a := by
      unfold onMessage
      rw [ha, if_neg (by decide), if_neg (by decide), if_neg (by decide),
          if_neg (by decide), if_neg (by decide), if_pos rfl]
    rw [hm]
    cases hdir : dir a.providerID <;>
      simp [clearHandle, getCrypto, hdir, handleAfterProvider]

theorem keystorage_resolution_order_witness :
    handleAfterProvider false
      (onMessage emptyDir demoSession demoStorage demoGetItemAction).trace
      = true ∧
    (onMessage emptyDir demoSession demoStorage demoGetItemAction).result =
      (match emptyDir demoGetItemAction.providerID with
       | none => .error ⟨.PROVIDER_NOT_FOUND,
                         "Provider " ++ demoGetItemAction.providerID
                           ++ " is not found"⟩
       | some _ =>
         (onMessage emptyDir demoSession demoStorage demoGetItemAction).result) :=
  keystorage_resolution_order emptyDir demoSession demoStorage demoGetItemAction
    (by decide) (by decide)

/-- Claim C2 counterexample: two providers that share every key-storage
oracle — in particular the very same `setItem` backend — and differ only
in their concrete class tag (`PvCrypto` versus the software provider)
produce different SetItem results for the same request, session and
storage, because the dispatcher branches on `instanceof PvCrypto` and
attaches pin parameters only in that branch. -/
theorem keystorage_setitem_variant_ce :
    demoProviderOssl.ksSetItem = demoProviderPv.ksSetItem ∧
    (onMessage demoDir demoSession demoStorage demoSetItemAction).result =
      .ok (some (.bytes "with-pin")) ∧
    (onMessage demoDirOssl demoSession demoStorage demoSetItemAction).result =
      .ok (some (.bytes "no-pin")) := by
  refine ⟨rfl, ?_, ?_⟩ <;> rfl

/-- Claim C2 amended: the SetItem dispatch does branch on the concrete
provider class: when the resolved provider is `PvCrypto` the persistence
call receives pin parameters (friendly name = session origin,
description = the comma-joined usage list of the persisted key), and for
every other provider class it receives no options; apart from that
branch the handling is the same function of the request. -/
theorem keystorage_setitem_pin_options (dir : ProviderDirectory) (s : Session)
    (st : MemoryStorage) (a : ActionProto) (p : Provider)
    (sci : ServiceCryptoItem) (ha : a.action = KeyStorageSetItemAction)
    (hs : st.item a.itemId = some sci) (hp : dir a.providerID = some p) :
    (onMessage dir s st a).trace =
      [.handleLookup a.itemId, .providerResolve a.providerID,
       .ksSetItemCall (convertKeyAlgorithm sci.item)
         (if p.variant = .pv
          then some (setItemPinParams s (convertKeyAlgorithm sci.item))
          else none),
       .resultBuild] ∧
    (onMessage dir s st a).result =
      .ok (some (.bytes (p.ksSetItem (convertKeyAlgorithm sci.item)
        (if p.variant = .pv
         then some (setItemPinParams s (convertKeyAlgorithm sci.item))
         else none)))) := by
  have hg : getCrypto dir a.providerID = .ok p := by simp [getCrypto, hp]
  have hm : onMessage dir s st a = setItemHandle dir s st a := by
    unfold onMessage
    rw [ha, if_neg (by decide), if_pos rfl]
  rw [hm]
  simp [setItemHandle, hs, hg]

theorem keystorage_setitem_pin_options_witness :
    (onMessage demoDir demoSession demoStorage demoSetItemAction).trace =
      [.handleLookup demoSetItemAction.itemId,
       .providerResolve demoSetItemAction.providerID,
       .ksSetItemCall (convertKeyAlgorithm demoKey)
         (if demoProviderPv.variant = .pv
          then some (setItemPinParams demoSession (convertKeyAlgorithm demoKey))
          else none),
       .resultBuild] ∧
    (onMessage demoDir demoSession demoStorage demoSetItemAction).result =
      .ok (some (.bytes (demoProviderPv.ksSetItem (convertKeyAlgorithm demoKey)
        (if demoProviderPv.variant = .pv
         then some (setItemPinParams demoSession (convertKeyAlgorithm demoKey))
         else none)))) :=
  keystorage_setitem_pin_options demoDir demoSession demoStorage
    demoSetItemAction demoProviderPv ⟨demoKey, "p1"⟩ rfl rfl rfl

/-- Claim C10: a SetItem dispatch whose target key's algorithm object
still carries a `toAlgorithm` converter overwrites the algorithm field
of the registry-held live key object in place before persisting it: the
entry reachable through the existing handle now holds the converted
algorithm, the persistence call receives exactly that mutated object,
and every other field of the key is unchanged. -/
theorem keystorage_setitem_mutation (dir : ProviderDirectory) (s : Session)
    (st : MemoryStorage) (a : ActionProto) (p : Provider)
    (sci : ServiceCryptoItem) (d : Nat)
    (ha : a.action = KeyStorageSetItemAction)
    (hs : st.item a.itemId = some sci) (hp : dir a.providerID = some p)
    (halg : sci.item.algorithm = .proto d) :
    (onMessage dir s st a).storage.item a.itemId =
      some ⟨{ sci.item with algorithm := .plain d }, sci.providerID⟩ ∧
    Ev.ksSetItemCall { sci.item with algorithm := .plain d }
      (if p.variant = .pv
       then some (setItemPinParams s { sci.item with algorithm := .plain d })
       else none)
      ∈ (onMessage dir s st a).trace ∧
    ({ sci.item with algorithm := KeyAlgorithm.plain d }).keyKind
      = sci.item.keyKind ∧
    ({ sci.item with algorithm := KeyAlgorithm.plain d }).extractable
      = sci.item.extractable ∧
    ({ sci.item with algorithm := KeyAlgorithm.plain d }).usages
      = sci.item.usages := by
  have hconv : convertKeyAlgorithm sci.item =
      { sci.item with algorithm := .plain d } := by
    simp [convertKeyAlgorithm, halg, KeyAlgorithm.hasToAlgorithm,
          KeyAlgorithm.toAlgorithm]
  have hg : getCrypto dir a.providerID = .ok p := by simp [getCrypto, hp]
  have hm : onMessage dir s st a = setItemHandle dir s st a := by
    unfold onMessage
    rw [ha, if_neg (by decide), if_pos rfl]
  rw [hm]
  refine ⟨?_, ?_, rfl, rfl, rfl⟩
  · simp only [setItemHandle, hs, hg, hconv]
    exact findItem_updateItem st.items a.itemId _ _ hs
  · simp [setItemHandle, hs, hg, hconv]

theorem keystorage_setitem_mutation_witness :
    (onMessage demoDir demoSession demoProtoStorage
        demoSetItemAction).storage.item demoSetItemAction.itemId =
      some ⟨{ demoProtoKey with algorithm := .plain 7 }, "p1"⟩ ∧
    Ev.ksSetItemCall { demoProtoKey with algorithm := .plain 7 }
      (if demoProviderPv.variant = .pv
       then some (setItemPinParams demoSession
         { demoProtoKey with algorithm := .plain 7 })
       else none)
      ∈ (onMessage demoDir demoSession demoProtoStorage demoSetItemAction).trace ∧
    ({ demoProtoKey with algorithm := KeyAlgorithm.plain 7 }).keyKind
      = demoProtoKey.keyKind ∧
    ({ demoProtoKey with algorithm := KeyAlgorithm.plain 7 }).extractable
      = demoProtoKey.extractable ∧
    ({ demoProtoKey with algorithm := KeyAlgorithm.plain 7 }).usages
      = demoProtoKey.usages :=
  keystorage_setitem_mutation demoDir demoSession demoProtoStorage
    demoSetItemAction demoProviderPv ⟨demoProtoKey, "p1"⟩ 7 rfl rfl rfl rfl

/-- Claim C5: `digest` consults the local in-process digest capability
first — when it is available and its attempt succeeds, the provider
pipeline is not consulted; the provider pipeline is consulted exactly
when the capability is absent or its attempt fails; and, under the
spec's determinism assumption for the externally provided digest
primitive (the local capability agrees with the provider on every input
it answers), the returned bytes equal the provider-path bytes for the
same (algorithm, data) pair on either path. -/
theorem subtle_digest_local_first (ctx : DigestCtx) (alg : Nat)
    (data : List Nat)
    (hagree : ∀ nd, ctx.nativeDigest = some nd →
      ∀ a d r, nd a d = some r → r = ctx.providerDigest a d) :
    (digest ctx alg data).2 =
      (match ctx.nativeDigest with
       | some nd => (nd alg data).isNone
       | none => true) ∧
    (digest ctx alg data).1 = ctx.providerDigest alg data := by
  cases hnd : ctx.nativeDigest with
  | none => simp [digest, hnd]
  | some nd =>
    cases hr : nd alg data with
    | none => simp [digest, hnd, hr]
    | some r =>
      have hr' : r = ctx.providerDigest alg data := hagree nd hnd alg data r hr
      simp [digest, hnd, hr, hr']

/-- Native and provider digest backends computing the same function. -/
def demoDigestCtx : DigestCtx :=
  ⟨some (fun a d => some (a :: d)), fun a d => a :: d⟩

theorem subtle_digest_local_first_witness :
    (digest demoDigestCtx 2 [3, 4]).2 =
      (match demoDigestCtx.nativeDigest with
       | some nd => (nd 2 [3, 4]).isNone
       | none => true) ∧
    (digest demoDigestCtx 2 [3, 4]).1 = demoDigestCtx.providerDigest 2 [3, 4] :=
  subtle_digest_local_first demoDigestCtx 2 [3, 4]
    (by
      intro nd hnd a d r hr
      simp only [demoDigestCtx] at hnd
      injection hnd with h
      subst h
      simp only [Option.some.injEq] at hr
      subst hr
      rfl)

/-- Claim C6: `generateKey` interprets the wire result as a key pair
first; exactly when the pair import fails it interprets the result as a
single key — the shape probe itself raises no error: the only error path
is the one of the single-key import, mapped through unchanged. -/
theorem subtle_generatekey_two_shape (ctx : GenKeyCtx) (alg : Nat) (ext : Bool)
    (usages : List String) :
    generateKey ctx alg ext usages =
      (match importKeyPairProto (ctx.send ⟨ctx.id, alg, ext, usages⟩) with
       | some pr => .ok (.pair pr.1 pr.2)
       | none => (importKeyProto
           (ctx.send ⟨ctx.id, alg, ext, usages⟩)).map GenKeyResult.single) := by
  cases hr : ctx.send ⟨ctx.id, alg, ext, usages⟩ <;>
    simp [generateKey, importKeyPairProto, importKeyProto, hr, Except.map]

/-- Claim C7 counterexample: `deriveBits` accepts a negative numeric
length — validation succeeds and the action handed to the transport
carries the negative length, refuting the claim that a negative length
is rejected with a validation error before the action is sent. -/
theorem subtle_derivebits_negative_ce :
    ((-5 : Int) < 0) ∧
    deriveBits "p1" 1 0 (.num (-5)) = .ok ⟨"p1", 1, 0, .num (-5)⟩ := by
  exact ⟨by decide, rfl⟩

/-- Claim C7 amended: the only per-field validation applied to the
`length` parameter of `deriveBits` is the well-typedness check
`checkPrimitive(length, "number", "length")`: every numeric length —
negative values included — passes validation and is placed unchanged in
the action sent to the provider, while a length whose `typeof` is not
`number` is rejected with a validation error before any action is
built. -/
theorem subtle_derivebits_length_check (pid : String) (alg baseKey : Nat)
    (n : Int) (v : JsVal) (hv : typeofVal v ≠ "number") :
    deriveBits pid alg baseKey (.num n) = .ok ⟨pid, alg, baseKey, .num n⟩ ∧
    deriveBits pid alg baseKey v =
      .error "Parameter length is required and must be number" := by
  constructor
  · rfl
  · cases v with
    | num m => simp [typeofVal] at hv
    | str t => rfl
    | boolean b => rfl
    | undef => rfl

theorem subtle_derivebits_length_check_witness :
    deriveBits "p1" 1 0 (.num (-3)) = .ok ⟨"p1", 1, 0, .num (-3)⟩ ∧
    deriveBits "p1" 1 0 (.str "x") =
      .error "Parameter length is required and must be number" :=
  subtle_derivebits_length_check "p1" 1 0 (-3) (.str "x") (by decide)

/-- Claim C8: the action codec is symmetric — decoding an encoded value
returns the value itself for every schema with distinct field names —
and decoding a message carrying extra fields unknown to the schema
succeeds, ignoring those fields, rather than rejecting the message. -/
theorem proto_codec_roundtrip (schema : List String) (vals : List WireVal)
    (extra : List (String × WireVal)) (hnd : schema.Nodup)
    (hlen : vals.length = schema.length) :
    decodeFields schema (encodeFields schema vals) = some vals ∧
    decodeFields schema (encodeFields schema vals ++ extra) = some vals := by
  constructor
  · have := decodeFields_encode_aux schema vals [] [] hnd hlen (by simp)
    simpa using this
  · have := decodeFields_encode_aux schema vals [] extra hnd hlen (by simp)
    simpa using this

theorem proto_codec_roundtrip_witness :
    decodeFields ["providerID", "algorithm", "extractable"]
      (encodeFields ["providerID", "algorithm", "extractable"]
        [.strV "p1", .natV 4, .boolV true]) =
      some [.strV "p1", .natV 4, .boolV true] ∧
    decodeFields ["providerID", "algorithm", "extractable"]
      (encodeFields ["providerID", "algorithm", "extractable"]
        [.strV "p1", .natV 4, .boolV true]
        ++ [("futureField", .boolV false), ("other", .natV 0)]) =
      some [.strV "p1", .natV 4, .boolV true] :=
  proto_codec_roundtrip ["providerID", "algorithm", "extractable"]
    [.strV "p1", .natV 4, .boolV true]
    [("futureField", .boolV false), ("other", .natV 0)]
    (by decide) (by decide)

end WebcryptoLocal
